import Mathlib

/-!
Verification of the Megatron-LM distributed training control loop
(`megatron/training.py`, `megatron/initialize.py`) against its
natural-language specification.

Numeric model: sample counters, iteration counters and batch sizes are `Nat`;
seeds are `Int`; loss values carried by the metrics aggregator are modelled by
an explicit `FloatVal` type with IEEE-style infinities and NaN (self-equality
failure), since the NaN-detection logic depends on them; loss magnitudes in
the per-step averaging are modelled as rationals.
-/

namespace Megatron

/-! ## Microbatch schedule

`megatron/microbatches.py` is not part of the sources; the definitions in this
section model the spec's MicrobatchScheduler contract. -/

/-- Modelled from the spec: the MicrobatchScheduler's configuration, holding a
piecewise schedule that is either constant (`rampup = none`) or a linear ramp
defined by `(start_size, increment, ramp_samples)` together with the final
`global_batch_size`, plus the `micro_batch_size` and `data_parallel_size` that
the global batch size must divide into. -/
structure BatchSizeSchedule where
  microBatchSize : Nat
  dataParallelSize : Nat
  globalBatchSize : Nat
  rampup : Option (Nat × Nat × Nat)
deriving Repr, DecidableEq

/-- Modelled from the spec: the global batch size in effect during a linear
ramp.  The size starts at `startSize` and grows by `incr` each time the
consumed-sample count crosses successive evenly spaced thresholds (one
threshold per batch-size value of the ramp, spread over `rampSamples`),
capped at the final size `cap`; once consumption passes `rampSamples` the
final size is in effect.  On the spec's example `(start=8, increment=8,
ramp_samples=24)` with final size 24 this yields sizes 8/16/24 as consumed
samples cross 8/16/24. -/
def rampBatchSize (startSize incr rampSamples cap consumed : Nat) : Nat :=
  if rampSamples < consumed then cap
  else
    let numSizes := (cap - startSize) / incr + 1
    let samplesPerIncrement := rampSamples / numSizes
    min cap (startSize + incr * (consumed / samplesPerIncrement))

/-- Modelled from the spec: `current_global_batch_size(consumed_samples)`,
the batch size in effect after `consumed` samples. -/
def currentGlobalBatchSize (s : BatchSizeSchedule) (consumed : Nat) : Nat :=
  match s.rampup with
  | none => s.globalBatchSize
  | some (startSize, incr, rampSamples) =>
      rampBatchSize startSize incr rampSamples s.globalBatchSize consumed

/-- Modelled from the spec: `num_microbatches(consumed_samples)` = the current
global batch size divided by `micro_batch_size * data_parallel_size`. -/
def numMicrobatches (s : BatchSizeSchedule) (consumed : Nat) : Nat :=
  currentGlobalBatchSize s consumed / (s.microBatchSize * s.dataParallelSize)

/-- Well-formedness of a schedule: every batch size the schedule can produce
divides evenly into microbatches (the spec makes a non-integral microbatch
count a fatal `ConfigError` at scheduler construction). -/
def ExactMicrobatches (s : BatchSizeSchedule) : Prop :=
  ∀ consumed : Nat,
    s.microBatchSize * s.dataParallelSize ∣ currentGlobalBatchSize s consumed

/-! ## Random seeding (`megatron/initialize.py`, `_set_random_seed`) -/

/-- Embeds `_set_random_seed` (initialize.py lines 273-287).  Given the base
seed, the pipeline-model-parallel rank, the data-parallel rank, the
`data_parallel_random_init` flag and the CUDA device count, it either raises
(`Except.error`, the `ValueError` branch) or returns the list of seeds
installed into the process-local random sources, in program order:
`random.seed`, `np.random.seed`, `torch.manual_seed`, and — when a CUDA
device is present — the tensor-model-parallel CUDA RNG. -/
def set_random_seed (seed_ : Int) (ppRank dpRank : Nat)
    (dataParallelRandomInit : Bool) (cudaDeviceCount : Nat) :
    Except String (List Int) :=
  if 0 < seed_ then
    let seed := seed_ + 100 * (ppRank : Int)
    let seed := if dataParallelRandomInit then seed + 10 * (dpRank : Int) else seed
    .ok ([seed, seed, seed] ++ (if 0 < cudaDeviceCount then [seed] else []))
  else
    .error "Seed should be a positive integer."

/-- C3: for every positive base seed, every process-local random source is
seeded with the identical value `base_seed + 100 * pipeline_rank`, plus
`10 * data_parallel_rank` exactly when `data_parallel_random_init` is
requested; and when it is not requested the outcome is independent of the
data-parallel rank. -/
theorem seed_formula_and_dp_independence
    (seed_ : Int) (ppRank dpRank dpRank' : Nat)
    (dataParallelRandomInit : Bool) (cudaDeviceCount : Nat)
    (hpos : 0 < seed_) :
    set_random_seed seed_ ppRank dpRank dataParallelRandomInit cudaDeviceCount
      = .ok (List.replicate (if 0 < cudaDeviceCount then 4 else 3)
          (seed_ + 100 * (ppRank : Int)
            + (if dataParallelRandomInit then 10 * (dpRank : Int) else 0)))
    ∧ (dataParallelRandomInit = false →
        set_random_seed seed_ ppRank dpRank dataParallelRandomInit cudaDeviceCount
          = set_random_seed seed_ ppRank dpRank' dataParallelRandomInit cudaDeviceCount) := by
  constructor
  · unfold set_random_seed
    rw [if_pos hpos]
    cases dataParallelRandomInit <;> cases Nat.decLt 0 cudaDeviceCount with
    | _ h => simp_all [List.replicate]; try ring
  · intro hrand
    subst hrand
    unfold set_random_seed
    simp

/-- Witness for C3 at concrete inputs: base seed 1234, pipeline rank 2,
data-parallel ranks 3 and 5, randomization off, one CUDA device. -/
theorem seed_formula_and_dp_independence_witness :
    set_random_seed 1234 2 3 false 1 = .ok (List.replicate 4 (1434 : Int))
    ∧ set_random_seed 1234 2 3 false 1 = set_random_seed 1234 2 5 false 1 := by
  have h := seed_formula_and_dp_independence 1234 2 3 5 false 1 (by norm_num)
  refine ⟨?_, h.2 rfl⟩
  have h1 := h.1
  norm_num at h1 ⊢
  exact h1

/-- C4: random-seed initialization fails (with the configuration error) if
and only if the supplied base seed is non-positive; for every strictly
positive base seed it succeeds without raising. -/
theorem seed_fails_iff_nonpositive
    (seed_ : Int) (ppRank dpRank : Nat)
    (dataParallelRandomInit : Bool) (cudaDeviceCount : Nat) :
    (∃ msg, set_random_seed seed_ ppRank dpRank dataParallelRandomInit cudaDeviceCount
        = .error msg) ↔ seed_ ≤ 0 := by
  unfold set_random_seed
  by_cases hpos : 0 < seed_
  · rw [if_pos hpos]
    simp [not_le.mpr hpos]
  · rw [if_neg hpos]
    simp [not_lt.mp hpos]

/-! ## LR/WD scheduler stepping inside `train_step` (training.py lines 447-470) -/

/-- Modelled from the spec: the LR/WD scheduler's observable stepping state.
`megatron/optimizer_param_scheduler.py` is not part of the sources; per the
spec, `step(increment)` "advances the LR/WD schedule by the number of samples
just consumed".  `numSteps` is the internal sample counter; `stepCalls`
counts invocations of `step`, so "left untouched" is observable even for a
zero increment. -/
structure OptParamScheduler where
  numSteps : Nat
  stepCalls : Nat
deriving Repr, DecidableEq

/-- Modelled from the spec: `OptimizerParamScheduler.step(increment)`. -/
def schedulerStep (sched : OptParamScheduler) (increment : Nat) : OptParamScheduler :=
  { numSteps := sched.numSteps + increment, stepCalls := sched.stepCalls + 1 }

/-- Embeds the post-optimizer tail of `train_step` (training.py lines
447-470): `optimizer.step` reports `update_successful`; on success the LR/WD
schedule is stepped with `increment = get_num_microbatches() *
micro_batch_size * data_parallel_size` and `skipped_iter = 0`; otherwise the
schedule is not touched and `skipped_iter = 1`. -/
def lrScheduleUpdate (updateSuccessful : Bool)
    (numMicro microBatchSize dataParallelSize : Nat)
    (sched : OptParamScheduler) : OptParamScheduler × Nat :=
  if updateSuccessful then
    (schedulerStep sched (numMicro * microBatchSize * dataParallelSize), 0)
  else
    (sched, 1)

/-- C2: the LR/WD scheduler is advanced if and only if the optimizer step
reports success; when advanced, the increment is exactly
`num_microbatches * micro_batch_size * data_parallel_size` and the step is
not recorded as skipped; on failure the scheduler is left untouched and
`skipped_iter = 1`. -/
theorem lr_schedule_advances_iff_success (updateSuccessful : Bool)
    (numMicro microBatchSize dataParallelSize : Nat) (sched : OptParamScheduler) :
    (((lrScheduleUpdate updateSuccessful numMicro microBatchSize dataParallelSize sched).1.stepCalls
        = sched.stepCalls + 1) ↔ updateSuccessful = true)
    ∧ (updateSuccessful = true →
        lrScheduleUpdate updateSuccessful numMicro microBatchSize dataParallelSize sched
          = ({ numSteps := sched.numSteps + numMicro * microBatchSize * dataParallelSize,
               stepCalls := sched.stepCalls + 1 }, 0))
    ∧ (updateSuccessful = false →
        lrScheduleUpdate updateSuccessful numMicro microBatchSize dataParallelSize sched
          = (sched, 1)) := by
  cases updateSuccessful <;>
    simp [lrScheduleUpdate, schedulerStep]

/-- Witness for C2: a successful step with 4 microbatches of size 2 across 3
data-parallel replicas advances the scheduler by 24 samples; a failed step
leaves the scheduler untouched and records a skip. -/
theorem lr_schedule_advances_iff_success_witness :
    lrScheduleUpdate true 4 2 3 ⟨0, 0⟩ = ({ numSteps := 24, stepCalls := 1 }, 0)
    ∧ lrScheduleUpdate false 4 2 3 ⟨7, 5⟩ = (⟨7, 5⟩, 1) := by
  have h1 := (lr_schedule_advances_iff_success true 4 2 3 ⟨0, 0⟩).2.1 rfl
  have h2 := (lr_schedule_advances_iff_success false 4 2 3 ⟨7, 5⟩).2.2 rfl
  refine ⟨?_, h2⟩
  rw [h1]

/-! ## The training loop's counters (training.py, `train`, lines 714-734) -/

/-- State carried across iterations of the `train` while-loop: the iteration
counter, the `consumed_train_samples` counter, and the LR/WD scheduler state
mutated inside `train_step`. -/
structure TrainState where
  iteration : Nat
  consumedTrainSamples : Nat
  sched : OptParamScheduler
deriving Repr, DecidableEq

/-- Embeds one pass of the `train` while-loop body (training.py lines
722-734): `update_num_microbatches(args.consumed_train_samples)` fixes the
microbatch count from the samples consumed so far, `train_step` performs the
attempted optimizer step (its reported success, the `updateSuccessful` input,
decides only the LR-schedule advance), then `iteration += 1` and
`consumed_train_samples += data_parallel_size * micro_batch_size *
num_microbatches` execute unconditionally. -/
def trainLoopStep (s : BatchSizeSchedule) (updateSuccessful : Bool)
    (st : TrainState) : TrainState :=
  let nm := numMicrobatches s st.consumedTrainSamples
  let stepOut := lrScheduleUpdate updateSuccessful nm s.microBatchSize s.dataParallelSize st.sched
  { iteration := st.iteration + 1,
    consumedTrainSamples :=
      st.consumedTrainSamples + s.dataParallelSize * s.microBatchSize * nm,
    sched := stepOut.1 }

/-- The training state after `n` attempted optimizer steps from `st0`, where
`success t` is the optimizer's success report at iteration offset `t`. -/
def runTrain (s : BatchSizeSchedule) (success : Nat → Bool)
    (st0 : TrainState) : Nat → TrainState
  | 0 => st0
  | n + 1 => trainLoopStep s (success n) (runTrain s success st0 n)

/-- On a well-formed schedule the loop's sample increment
`data_parallel_size * micro_batch_size * num_microbatches` is exactly the
global batch size in effect. -/
theorem increment_eq_current_gbs (s : BatchSizeSchedule)
    (hdiv : ExactMicrobatches s) (c : Nat) :
    s.dataParallelSize * s.microBatchSize * numMicrobatches s c
      = currentGlobalBatchSize s c := by
  have h := hdiv c
  unfold numMicrobatches
  rw [mul_comm s.dataParallelSize s.microBatchSize]
  exact Nat.mul_div_cancel' h

/-- C1: every attempted optimizer step — whatever the optimizer's success
report — increases `consumed_train_samples` by exactly
`num_microbatches * micro_batch_size * data_parallel_size` and the iteration
counter by exactly 1; hence after `N` attempted steps from fresh counters,
`consumed_train_samples` equals the sum of the global batch sizes in effect
at steps `0..N-1`. -/
theorem consumed_samples_counter_invariant
    (s : BatchSizeSchedule) (success : Nat → Bool) (st0 : TrainState) (N : Nat)
    (hdiv : ExactMicrobatches s) :
    (∀ b st, (trainLoopStep s b st).consumedTrainSamples
        = st.consumedTrainSamples
          + numMicrobatches s st.consumedTrainSamples * s.microBatchSize * s.dataParallelSize
      ∧ (trainLoopStep s b st).iteration = st.iteration + 1)
    ∧ (runTrain s success st0 N).iteration = st0.iteration + N
    ∧ (runTrain s success st0 N).consumedTrainSamples
        = st0.consumedTrainSamples
          + ∑ t ∈ Finset.range N,
              currentGlobalBatchSize s ((runTrain s success st0 t).consumedTrainSamples) := by
  refine ⟨?_, ?_, ?_⟩
  · intro b st
    constructor
    · show st.consumedTrainSamples + s.dataParallelSize * s.microBatchSize * _ = _
      ring
    · rfl
  · induction N with
    | zero => rfl
    | succ n ih =>
      show (runTrain s success st0 n).iteration + 1 = st0.iteration + (n + 1)
      rw [ih]
      ring
  · induction N with
    | zero => simp [runTrain]
    | succ n ih =>
      rw [Finset.sum_range_succ]
      show (runTrain s success st0 n).consumedTrainSamples
          + s.dataParallelSize * s.microBatchSize
            * numMicrobatches s (runTrain s success st0 n).consumedTrainSamples = _
      rw [increment_eq_current_gbs s hdiv, ih, Nat.add_assoc]

/-- Witness for C1: a constant schedule with `micro_batch_size = 4`,
`data_parallel_size = 2`, `global_batch_size = 32`; after 3 attempted steps
that were all skipped, the consumed-sample counter is 96 = 32 + 32 + 32 and
the iteration counter is 3. -/
theorem consumed_samples_counter_invariant_witness :
    (runTrain ⟨4, 2, 32, none⟩ (fun _ => false) ⟨0, 0, ⟨0, 0⟩⟩ 3).consumedTrainSamples = 96
    ∧ (runTrain ⟨4, 2, 32, none⟩ (fun _ => false) ⟨0, 0, ⟨0, 0⟩⟩ 3).iteration = 3 := by
  have hdiv : ExactMicrobatches ⟨4, 2, 32, none⟩ := by
    intro c
    show (4 * 2 : Nat) ∣ 32
    norm_num
  have h := consumed_samples_counter_invariant ⟨4, 2, 32, none⟩ (fun _ => false)
    ⟨0, 0, ⟨0, 0⟩⟩ 3 hdiv
  refine ⟨?_, by rw [h.2.1]⟩
  rw [h.2.2]
  decide

/-! ## Per-step loss averaging (`train_step`, training.py lines 476-483) -/

/-- A per-microbatch loss dictionary: loss name to reduced loss value. -/
abbrev LossDict := List (String × ℚ)

/-- Lookup of a key's value in a loss dictionary (`x[key]`); the default is
never reached on the inputs the code runs on (every microbatch dict carries
the same keys). -/
def lookupLoss (d : LossDict) (k : String) : ℚ :=
  match d.find? (fun kv => kv.1 == k) with
  | some kv => kv.2
  | none => 0

/-- The value `train_step` returns (spec's StepResult). -/
structure StepResult where
  lossByKey : List (String × ℚ)
  skippedIter : Nat
  gradNorm : Option ℚ
  numZerosInGrad : Option ℚ
deriving Repr, DecidableEq

/-- Embeds the loss-averaging loop of `train_step` (training.py lines
477-481): iterate over the keys of `losses_reduced[0]` and map each to
`sum([x[key] for x in losses_reduced]) / len(...)`, the mean over the
micro-batches of the step. -/
def averagedLosses (lossesReduced : List LossDict) : List (String × ℚ) :=
  match lossesReduced with
  | [] => []
  | first :: _ =>
      first.map (fun kv =>
        (kv.1, (lossesReduced.map (fun x => lookupLoss x kv.1)).sum
                 / (lossesReduced.length : ℚ)))

/-- Embeds the return of `train_step` (training.py lines 476-483): on the
rank owning the last pipeline stage the averaged losses are returned;
elsewhere the loss mapping is empty; `skipped_iter`, `grad_norm` and
`num_zeros_in_grad` are returned unconditionally. -/
def trainStepResult (isPipelineLastStage : Bool) (lossesReduced : List LossDict)
    (skippedIter : Nat) (gradNorm numZerosInGrad : Option ℚ) : StepResult :=
  if isPipelineLastStage then
    { lossByKey := averagedLosses lossesReduced, skippedIter := skippedIter,
      gradNorm := gradNorm, numZerosInGrad := numZerosInGrad }
  else
    { lossByKey := [], skippedIter := skippedIter,
      gradNorm := gradNorm, numZerosInGrad := numZerosInGrad }

/-- C8: the loss mapping is non-empty only on the rank owning the last
pipeline stage; there, the keys are those of the first micro-batch's dict and
each value is the arithmetic mean of that key's per-microbatch losses; on
every other rank the loss mapping is empty; `skipped_iter`, `grad_norm` and
`num_zeros_in_grad` are returned on all ranks. -/
theorem loss_mapping_last_stage_only (isPipelineLastStage : Bool)
    (lossesReduced : List LossDict) (skippedIter : Nat)
    (gradNorm numZerosInGrad : Option ℚ) :
    (isPipelineLastStage = false →
      (trainStepResult isPipelineLastStage lossesReduced skippedIter gradNorm numZerosInGrad).lossByKey
        = [])
    ∧ (isPipelineLastStage = true →
        (trainStepResult isPipelineLastStage lossesReduced skippedIter gradNorm numZerosInGrad).lossByKey.map Prod.fst
          = (lossesReduced.headD []).map Prod.fst
        ∧ ∀ kv ∈ (trainStepResult isPipelineLastStage lossesReduced skippedIter gradNorm numZerosInGrad).lossByKey,
            kv.2 = (lossesReduced.map (fun x => lookupLoss x kv.1)).sum
                     / (lossesReduced.length : ℚ))
    ∧ (trainStepResult isPipelineLastStage lossesReduced skippedIter gradNorm numZerosInGrad).skippedIter
        = skippedIter
    ∧ (trainStepResult isPipelineLastStage lossesReduced skippedIter gradNorm numZerosInGrad).gradNorm
        = gradNorm
    ∧ (trainStepResult isPipelineLastStage lossesReduced skippedIter gradNorm numZerosInGrad).numZerosInGrad
        = numZerosInGrad := by
  refine ⟨?_, ?_, ?_, ?_, ?_⟩
  · intro h
    subst h
    rfl
  · intro h
    subst h
    constructor
    · cases lossesReduced with
      | nil => rfl
      | cons first rest =>
        show (first.map _).map Prod.fst = first.map Prod.fst
        rw [List.map_map]
        rfl
    · intro kv hkv
      cases lossesReduced with
      | nil => simp [trainStepResult, averagedLosses] at hkv
      | cons first rest =>
        simp only [trainStepResult, if_pos, averagedLosses, List.mem_map] at hkv
        obtain ⟨kv0, _, rfl⟩ := hkv
        rfl
  · cases isPipelineLastStage <;> rfl
  · cases isPipelineLastStage <;> rfl
  · cases isPipelineLastStage <;> rfl

/-- Witness for C8: two micro-batches with losses lm = 2, 4 and sop = 4, 0
average to lm = 3 and sop = 2 on the last stage; a non-last-stage rank
returns the empty mapping with the same skip flag. -/
theorem loss_mapping_last_stage_only_witness :
    (trainStepResult true [[("lm", 2), ("sop", 4)], [("lm", 4), ("sop", 0)]] 0 none none).lossByKey.map Prod.fst
      = ["lm", "sop"]
    ∧ (trainStepResult false [[("lm", 2), ("sop", 4)], [("lm", 4), ("sop", 0)]] 1 none none).lossByKey
      = []
    ∧ (trainStepResult false [[("lm", 2), ("sop", 4)], [("lm", 4), ("sop", 0)]] 1 none none).skippedIter
      = 1 := by
  have h1 := loss_mapping_last_stage_only true
    [[("lm", 2), ("sop", 4)], [("lm", 4), ("sop", 0)]] 0 none none
  have h2 := loss_mapping_last_stage_only false
    [[("lm", 2), ("sop", 4)], [("lm", 4), ("sop", 0)]] 1 none none
  exact ⟨by rw [(h1.2.1 rfl).1]; rfl, h2.1 rfl, h2.2.2.1⟩

/-! ## Metrics aggregation (`training_log`, training.py lines 494-521 and
616-661).  Loss values here carry IEEE-style special values, since the NaN
detection depends on them. -/

/-- A modelled floating-point value: finite (exact) values plus the two
infinities and NaN. -/
inductive FloatVal where
  | finite : ℚ → FloatVal
  | inf : FloatVal
  | negInf : FloatVal
  | nan : FloatVal
deriving Repr, DecidableEq

/-- IEEE `==` on modelled float values: NaN compares unequal to everything,
itself included. -/
def floatEq : FloatVal → FloatVal → Bool
  | .finite a, .finite b => a == b
  | .inf, .inf => true
  | .negInf, .negInf => true
  | _, _ => false

/-- The non-finiteness test of `training_log` (training.py lines 516-518):
a value is "NaN" when it equals `+inf`, equals `-inf`, or fails
self-equality. -/
def isNanLoss (v : FloatVal) : Bool :=
  floatEq v .inf || floatEq v .negInf || !(floatEq v v)

/-- IEEE-style addition on modelled float values, used when accumulating
per-key loss totals. -/
def floatAdd : FloatVal → FloatVal → FloatVal
  | .nan, _ => .nan
  | _, .nan => .nan
  | .inf, .negInf => .nan
  | .negInf, .inf => .nan
  | .inf, _ => .inf
  | _, .inf => .inf
  | .negInf, _ => .negInf
  | _, .negInf => .negInf
  | .finite a, .finite b => .finite (a + b)

/-- Division of a modelled float value by a positive natural count. -/
def floatDivNat (v : FloatVal) (n : Nat) : FloatVal :=
  match v with
  | .finite a => .finite (a / (n : ℚ))
  | .inf => .inf
  | .negInf => .negInf
  | .nan => .nan

/-- The aggregation state `total_loss_dict` carries across `training_log`
calls: per-loss-key running totals, plus the three special counters the code
stores under reserved keys of the same dict (modelled as separate fields). -/
structure LogState where
  totals : List (String × FloatVal)
  advancedIters : Nat
  skippedIters : Nat
  nanIters : Nat
deriving Repr, DecidableEq

/-- `total_loss_dict.get(key, 0)`. -/
def getTotal (totals : List (String × FloatVal)) (k : String) : FloatVal :=
  match totals.find? (fun kv => kv.1 == k) with
  | some kv => kv.2
  | none => .finite 0

/-- `total_loss_dict[key] = v`: replace in place, or append a new key. -/
def setTotal (totals : List (String × FloatVal)) (k : String) (v : FloatVal) :
    List (String × FloatVal) :=
  match totals with
  | [] => [(k, v)]
  | kv :: rest => if kv.1 == k then (k, v) :: rest else kv :: setTotal rest k v

/-- The accumulation loop `total_loss_dict[key] = total_loss_dict.get(key, 0)
+ loss_dict[key]` over the keys of this step's loss dict. -/
def accumulateLosses (totals : List (String × FloatVal))
    (lossDict : List (String × FloatVal)) : List (String × FloatVal) :=
  lossDict.foldl (fun ts kv => setTotal ts kv.1 (floatAdd (getTotal ts kv.1) kv.2)) totals

/-- Embeds the counter-update prefix of `training_log` (training.py lines
494-521): the advanced counter gains 1 exactly on non-skipped iterations;
the skipped counter gains `skipped_iter`; per-key totals accumulate the
step's losses only when the iteration is not skipped; `got_nan` is computed
from the loss values' non-finiteness only in the skipped branch of the
per-key loop; the nan counter gains `int(got_nan)`. -/
def recordStep (skippedIter : Bool) (lossDict : List (String × FloatVal))
    (st : LogState) : LogState :=
  let advanced := if skippedIter then st.advancedIters else st.advancedIters + 1
  let skipped := st.skippedIters + (if skippedIter then 1 else 0)
  let totals := if skippedIter then st.totals else accumulateLosses st.totals lossDict
  let gotNan := if skippedIter then lossDict.any (fun kv => isNanLoss kv.2) else false
  { totals := totals,
    advancedIters := advanced,
    skippedIters := skipped,
    nanIters := st.nanIters + (if gotNan then 1 else 0) }

/-- Embeds the flush portion of `training_log` on the logging cadence
(training.py lines 638-661): every loss key's reported average is its
accumulated total divided by `max(1, advanced)` and its total is reset to
zero; then the advanced, skipped and nan counters are reset to zero. -/
def flushAverages (st : LogState) : List (String × FloatVal) × LogState :=
  (st.totals.map (fun kv => (kv.1, floatDivNat kv.2 (max 1 st.advancedIters))),
   { totals := st.totals.map (fun kv => (kv.1, FloatVal.finite 0)),
     advancedIters := 0, skippedIters := 0, nanIters := 0 })

/-- One `training_log` call, for counter/average bookkeeping: record the
iteration, then flush exactly when `iteration % log_interval == 0`. -/
def trainingLogCall (logInterval iteration : Nat) (skippedIter : Bool)
    (lossDict : List (String × FloatVal)) (st : LogState) :
    Option (List (String × FloatVal)) × LogState :=
  if iteration % logInterval == 0 then
    (some (flushAverages (recordStep skippedIter lossDict st)).1,
     (flushAverages (recordStep skippedIter lossDict st)).2)
  else
    (none, recordStep skippedIter lossDict st)

/-- C5 as stated is false on the code: on a non-skipped iteration whose loss
dict holds the non-finite value `+inf`, the nan-iterations counter does not
increase (the code computes `got_nan` only in the skipped branch of the
per-key loop). -/
theorem nan_counter_counterexample :
    isNanLoss .inf = true
    ∧ (recordStep false [("lm loss", .inf)] ⟨[], 0, 0, 0⟩).nanIters = 0 := by
  exact ⟨rfl, rfl⟩

/-- C5 (amended): on every recorded iteration the nan counter increases by 1
exactly when the iteration was skipped and some loss value is non-finite
(+inf, -inf, or failing self-equality) — on non-skipped iterations it is
unchanged; the advanced counter gains 1 exactly on non-skipped iterations,
the skipped counter gains 1 exactly on skipped iterations, and per-key loss
totals accumulate only on non-skipped iterations. -/
theorem nan_counter_skipped_only (skippedIter : Bool)
    (lossDict : List (String × FloatVal)) (st : LogState) :
    (recordStep skippedIter lossDict st).nanIters
      = st.nanIters
        + (if skippedIter && lossDict.any (fun kv => isNanLoss kv.2) then 1 else 0)
    ∧ (recordStep skippedIter lossDict st).advancedIters
      = st.advancedIters + (if skippedIter then 0 else 1)
    ∧ (recordStep skippedIter lossDict st).skippedIters
      = st.skippedIters + (if skippedIter then 1 else 0)
    ∧ (recordStep skippedIter lossDict st).totals
      = (if skippedIter then st.totals else accumulateLosses st.totals lossDict) := by
  cases skippedIter with
  | false => simp [recordStep]
  | true =>
    cases hany : lossDict.any (fun kv => isNanLoss kv.2) <;>
      simp [recordStep, hany]

/-- C7: on the logging cadence, `training_log` computes for every loss key
the accumulated total divided by `max(1, advanced)` — well-defined even when
every iteration of the window was skipped — and leaves the advanced, skipped
and nan counters and every per-key total at zero. -/
theorem flush_divides_by_max_and_resets (logInterval iteration : Nat)
    (skippedIter : Bool) (lossDict : List (String × FloatVal)) (st : LogState)
    (hdue : iteration % logInterval = 0) :
    (trainingLogCall logInterval iteration skippedIter lossDict st).1
      = some ((recordStep skippedIter lossDict st).totals.map
          (fun kv => (kv.1,
            floatDivNat kv.2 (max 1 (recordStep skippedIter lossDict st).advancedIters))))
    ∧ (trainingLogCall logInterval iteration skippedIter lossDict st).2.advancedIters = 0
    ∧ (trainingLogCall logInterval iteration skippedIter lossDict st).2.skippedIters = 0
    ∧ (trainingLogCall logInterval iteration skippedIter lossDict st).2.nanIters = 0
    ∧ ∀ kv ∈ (trainingLogCall logInterval iteration skippedIter lossDict st).2.totals,
        kv.2 = FloatVal.finite 0 := by
  have hif : (iteration % logInterval == 0) = true := by
    simp [hdue]
  have hcall : trainingLogCall logInterval iteration skippedIter lossDict st
      = (some (flushAverages (recordStep skippedIter lossDict st)).1,
         (flushAverages (recordStep skippedIter lossDict st)).2) := by
    unfold trainingLogCall
    rw [if_pos hif]
  refine ⟨?_, ?_, ?_, ?_, ?_⟩
  · rw [hcall]
    rfl
  · rw [hcall]
    rfl
  · rw [hcall]
    rfl
  · rw [hcall]
    rfl
  · rw [hcall]
    intro kv hkv
    simp only [flushAverages, List.mem_map] at hkv
    obtain ⟨a, _, rfl⟩ := hkv
    rfl

/-- Witness for C7: window with one prior total lm = 4, a non-skipped
iteration adding lm = 6 with one prior advanced iteration, flushed at
iteration 4 with log interval 2: reported average 10 / 2 = 5, all counters
and the total reset to zero. -/
theorem flush_divides_by_max_and_resets_witness :
    (trainingLogCall 2 4 false [("lm", FloatVal.finite 6)]
        ⟨[("lm", FloatVal.finite 4)], 1, 0, 0⟩).1
      = some [("lm", FloatVal.finite 5)]
    ∧ (trainingLogCall 2 4 false [("lm", FloatVal.finite 6)]
        ⟨[("lm", FloatVal.finite 4)], 1, 0, 0⟩).2
      = ⟨[("lm", FloatVal.finite 0)], 0, 0, 0⟩ := by
  have h := flush_divides_by_max_and_resets 2 4 false [("lm", FloatVal.finite 6)]
    ⟨[("lm", FloatVal.finite 4)], 1, 0, 0⟩ (by norm_num)
  have hrec : recordStep false [("lm", FloatVal.finite 6)]
      ⟨[("lm", FloatVal.finite 4)], 1, 0, 0⟩
      = ⟨[("lm", FloatVal.finite 10)], 2, 0, 0⟩ := by
    norm_num [recordStep, accumulateLosses, setTotal, getTotal, floatAdd]
  constructor
  · rw [h.1, hrec]
    simp only [List.map_cons, List.map_nil, floatDivNat]
    norm_num
  · rw [show (trainingLogCall 2 4 false [("lm", FloatVal.finite 6)]
          ⟨[("lm", FloatVal.finite 4)], 1, 0, 0⟩).2
        = (flushAverages (recordStep false [("lm", FloatVal.finite 6)]
            ⟨[("lm", FloatVal.finite 4)], 1, 0, 0⟩)).2 from rfl, hrec]
    rfl

/-! ## Wall-clock termination (training.py lines 112-119 and 780-793) -/

/-- The MIN all-reduce over the per-rank `_TRAIN_START_TIME` values run once
in `pretrain` (training.py lines 115-119): afterwards every rank holds the
cluster-wide minimum start time. -/
def reducedStartTime : List ℚ → ℚ
  | [] => 0
  | t :: ts => ts.foldl min t

/-- One rank's local duration flag (training.py lines 782-784): its elapsed
time in minutes, measured from the shared minimum start time, exceeds the
configured `exit_duration_in_mins` budget. -/
def wallTimeFlag (budgetMins minStart now : ℚ) : Bool :=
  decide (budgetMins < (now - minStart) / 60)

/-- The MAX all-reduce of the per-rank duration flags (training.py lines
783-787): the single boolean every rank observes. -/
def wallTimeDone (budgetMins minStart : ℚ) (nowTimes : List ℚ) : Bool :=
  nowTimes.any (fun t => wallTimeFlag budgetMins minStart t)

/-- What a rank does for the duration trigger at the end of an iteration. -/
inductive IterationAction where
  | continueTraining
  | exitAfterSaving
  | exitWithoutSaving
deriving Repr, DecidableEq

/-- Embeds the duration-exit block of `train` (training.py lines 780-793) as
executed by each rank: if the all-reduced `done` flag is set, checkpoint —
unless a checkpoint was already saved this iteration — and exit; otherwise
continue.  Every rank evaluates this same function of the shared all-reduced
data, so all ranks take the same action on the same iteration. -/
def durationExitAction (budgetMins minStart : ℚ) (nowTimes : List ℚ)
    (savedCheckpoint : Bool) : IterationAction :=
  if wallTimeDone budgetMins minStart nowTimes then
    (if savedCheckpoint then .exitWithoutSaving else .exitAfterSaving)
  else .continueTraining

/-- A left fold with `min` is a lower bound of its initial value and of every
list element. -/
theorem foldl_min_le (l : List ℚ) :
    ∀ a : ℚ, l.foldl min a ≤ a ∧ ∀ x ∈ l, l.foldl min a ≤ x := by
  induction l with
  | nil =>
    intro a
    exact ⟨le_rfl, by intro x hx; cases hx⟩
  | cons b bs ih =>
    intro a
    have h := ih (min a b)
    refine ⟨le_trans h.1 (min_le_left a b), ?_⟩
    intro x hx
    rcases List.mem_cons.mp hx with rfl | hmem
    · exact le_trans h.1 (min_le_right a x)
    · exact h.2 x hmem

/-- The min-reduction really takes the minimum: the reduced start time is a
lower bound of every rank's start time. -/
theorem reducedStartTime_le (startTimes : List ℚ) :
    ∀ t ∈ startTimes, reducedStartTime startTimes ≤ t := by
  cases startTimes with
  | nil =>
    intro t ht
    cases ht
  | cons t0 ts =>
    intro t ht
    rcases List.mem_cons.mp ht with rfl | hmem
    · exact (foldl_min_le ts t).1
    · exact (foldl_min_le ts t0).2 t hmem

/-- C9: the wall-clock trigger measures elapsed time from the min-reduced
start time (a lower bound of every rank's start time), and the per-iteration
decision is the max-reduction of the per-rank booleans: if any one rank's
elapsed time exceeds the budget, the decision every rank observes that
iteration is to exit, checkpointing exactly when no checkpoint was already
saved this iteration; and when no rank's elapsed time exceeds the budget,
the shared decision is to continue — so no rank exits while a peer
continues. -/
theorem wall_clock_exit_agreement (budgetMins : ℚ) (startTimes nowTimes : List ℚ)
    (savedCheckpoint : Bool) :
    (∀ t ∈ startTimes, reducedStartTime startTimes ≤ t)
    ∧ ((∃ now ∈ nowTimes, budgetMins < (now - reducedStartTime startTimes) / 60) →
        durationExitAction budgetMins (reducedStartTime startTimes) nowTimes savedCheckpoint
          = (if savedCheckpoint then .exitWithoutSaving else .exitAfterSaving))
    ∧ ((∀ now ∈ nowTimes, ¬ budgetMins < (now - reducedStartTime startTimes) / 60) →
        durationExitAction budgetMins (reducedStartTime startTimes) nowTimes savedCheckpoint
          = .continueTraining) := by
  refine ⟨reducedStartTime_le startTimes, ?_, ?_⟩
  · rintro ⟨now, hmem, hlt⟩
    have hdone : wallTimeDone budgetMins (reducedStartTime startTimes) nowTimes = true := by
      simp only [wallTimeDone, List.any_eq_true]
      exact ⟨now, hmem, by simpa [wallTimeFlag] using hlt⟩
    simp [durationExitAction, hdone]
  · intro hall
    have hdone : wallTimeDone budgetMins (reducedStartTime startTimes) nowTimes = false := by
      simp only [wallTimeDone, List.any_eq_false, wallTimeFlag]
      intro t hmem
      simpa using hall t hmem
    simp [durationExitAction, hdone]

/-- Witness for C9: budget 60 minutes, start times 10 and 0 seconds, current
times 3700 and 100 seconds: the first rank's elapsed time is 3700/60 > 60
minutes, so with no checkpoint saved this iteration the shared decision is
save-then-exit. -/
theorem wall_clock_exit_agreement_witness :
    durationExitAction 60 (reducedStartTime [10, 0]) [3700, 100] false
      = .exitAfterSaving := by
  have h := wall_clock_exit_agreement 60 [10, 0] [3700, 100] false
  have h2 := h.2.1 ⟨3700, by simp, by norm_num [reducedStartTime]⟩
  simpa using h2

/-! ## Legacy checkpoint resume (training.py lines 930-938) -/

/-- Embeds the backward-compatibility block at the top of
`build_train_valid_test_data_iterators` (training.py lines 930-938),
sequentially: when the loaded checkpoint has `iteration > 0` but
`consumed_train_samples == 0`, assert that sample-based training is not in
use (`train_samples is None`, else `AssertionError`) and set
`consumed_train_samples = iteration * global_batch_size`; then, when
`iteration > 0` and `consumed_valid_samples == 0` and training is
iteration-based, set `consumed_valid_samples = (iteration // eval_interval)
* eval_iters * global_batch_size`.  Returns the two reconstructed
counters. -/
def legacyResumeCounters (iteration consumedTrain consumedValid : Nat)
    (trainSamples : Option Nat) (globalBatchSize evalInterval evalIters : Nat) :
    Except String (Nat × Nat) :=
  if 0 < iteration ∧ consumedTrain = 0 then
    match trainSamples with
    | some _ => .error "only backward compatiblity support for iteration-based training"
    | none =>
        .ok (iteration * globalBatchSize,
             if 0 < iteration ∧ consumedValid = 0 then
               (iteration / evalInterval) * evalIters * globalBatchSize
             else consumedValid)
  else
    .ok (consumedTrain,
         if 0 < iteration ∧ consumedValid = 0 then
           if trainSamples = none then
             (iteration / evalInterval) * evalIters * globalBatchSize
           else consumedValid
         else consumedValid)

/-- C10: on a legacy checkpoint (`iteration > 0`, `consumed_train_samples ==
0`) the data-iterator builder reconstructs `consumed_train_samples` as
`iteration * global_batch_size` and, analogously, a zero
`consumed_valid_samples` from the eval cadence as `(iteration //
eval_interval) * eval_iters * global_batch_size`; and if sample-based
training is in use (`train_samples` set) the assertion fires instead. -/
theorem legacy_resume_reconstruction (iteration consumedValid : Nat)
    (globalBatchSize evalInterval evalIters : Nat) (hpos : 0 < iteration) :
    legacyResumeCounters iteration 0 consumedValid none globalBatchSize evalInterval evalIters
      = .ok (iteration * globalBatchSize,
          if consumedValid = 0
          then (iteration / evalInterval) * evalIters * globalBatchSize
          else consumedValid)
    ∧ ∀ s : Nat, ∃ msg, legacyResumeCounters iteration 0 consumedValid (some s)
        globalBatchSize evalInterval evalIters = .error msg := by
  constructor
  · unfold legacyResumeCounters
    rw [if_pos ⟨hpos, rfl⟩]
    by_cases hv : consumedValid = 0
    · rw [if_pos ⟨hpos, hv⟩, if_pos hv]
    · rw [if_neg (fun h => hv h.2), if_neg hv]
  · intro s
    refine ⟨"only backward compatiblity support for iteration-based training", ?_⟩
    unfold legacyResumeCounters
    rw [if_pos ⟨hpos, rfl⟩]

/-- Witness for C10: iteration 10, `global_batch_size = 32`, `eval_interval
= 5`, `eval_iters = 2`: the train counter becomes 320 and the valid counter
(10 / 5) * 2 * 32 = 128; with `train_samples = 1000` the assertion fires. -/
theorem legacy_resume_reconstruction_witness :
    legacyResumeCounters 10 0 0 none 32 5 2 = .ok (320, 128)
    ∧ ∃ msg, legacyResumeCounters 10 0 0 (some 1000) 32 5 2 = .error msg := by
  have h := legacy_resume_reconstruction 10 0 32 5 2 (by norm_num)
  refine ⟨?_, h.2 1000⟩
  rw [h.1]
  norm_num

/-! ## Retrospective `train_iters` computation (training.py lines 187-214) -/

/-- The consumed-samples trace of the retrospective simulation in
`update_train_iters` (training.py lines 199-205): each step consumes
`get_current_global_batch_size()` at the current consumed count, starting
from 0.  Past the ramp the schedule yields the constant final batch size,
which is also what the constant phase of `update_train_iters` consumes per
step. -/
def retroConsumed (s : BatchSizeSchedule) : Nat → Nat
  | 0 => 0
  | t + 1 => retroConsumed s t + currentGlobalBatchSize s (retroConsumed s t)

/-- Embeds the ramp-phase while-loop of `update_train_iters` (training.py
lines 199-205): starting from `(iterations, consumed) = (0, 0)`, while
`consumed <= ramp_samples` the current global batch size is added to
`consumed` and `iterations` is incremented.  `fuel` bounds the recursion
(the Python loop terminates because batch sizes are positive). -/
def rampPhase (s : BatchSizeSchedule) (rampSamples : Nat) :
    Nat → Nat × Nat → Nat × Nat
  | 0, state => state
  | fuel + 1, (iterations, consumed) =>
      if consumed ≤ rampSamples then
        rampPhase s rampSamples fuel
          (iterations + 1, consumed + currentGlobalBatchSize s consumed)
      else (iterations, consumed)

/-- Embeds `update_train_iters` (training.py lines 187-214) for sample-based
training: with no ramp, `train_iters = train_samples // global_batch_size`;
with a ramp, simulate the ramp phase from zero consumed samples and then add
`(train_samples - consumed) // global_batch_size` constant-phase iterations,
throwing away any partial last batch. -/
def updateTrainIters (s : BatchSizeSchedule) (trainSamples : Nat) (fuel : Nat) : Nat :=
  match s.rampup with
  | none => trainSamples / s.globalBatchSize
  | some (_, _, rampSamples) =>
      let state := rampPhase s rampSamples fuel (0, 0)
      state.1 + (trainSamples - state.2) / s.globalBatchSize

/-- The ramp-phase loop of `update_train_iters` steps along the
`retroConsumed` trace: from a trace point it always lands on a trace
point. -/
theorem rampPhase_on_trace (s : BatchSizeSchedule) (rampSamples : Nat) :
    ∀ fuel k, ∃ j, rampPhase s rampSamples fuel (k, retroConsumed s k)
      = (j, retroConsumed s j) := by
  intro fuel
  induction fuel with
  | zero =>
    intro k
    exact ⟨k, rfl⟩
  | succ n ih =>
    intro k
    by_cases h : retroConsumed s k ≤ rampSamples
    · have hstep : rampPhase s rampSamples (n + 1) (k, retroConsumed s k)
          = rampPhase s rampSamples n
              (k + 1, retroConsumed s k + currentGlobalBatchSize s (retroConsumed s k)) := by
        show (if retroConsumed s k ≤ rampSamples then _ else _) = _
        rw [if_pos h]
      have heq : retroConsumed s k + currentGlobalBatchSize s (retroConsumed s k)
          = retroConsumed s (k + 1) := by
        simp [retroConsumed]
      rw [hstep, heq]
      exact ih (k + 1)
    · refine ⟨k, ?_⟩
      show (if retroConsumed s k ≤ rampSamples then _ else _) = _
      rw [if_neg h]

/-- C6: on any well-formed schedule, the live training loop and the
retrospective `train_iters` simulation walk the identical consumed-samples
trace, hence see the identical per-step global batch sizes and microbatch
counts; the ramp-phase loop of `update_train_iters` itself only visits
points of that shared trace; and on the spec's ramp example `(start=8,
increment=8, ramp_samples=24)` with `micro_batch_size=8` and
`data_parallel_size=1` the per-step batch sizes are 8, 16, 24, 24, 24 and
`update_train_iters` for 72 train samples yields 4 iterations. -/
theorem retro_simulation_matches_live_schedule
    (s : BatchSizeSchedule) (success : Nat → Bool) (hdiv : ExactMicrobatches s) :
    (∀ t, (runTrain s success ⟨0, 0, ⟨0, 0⟩⟩ t).consumedTrainSamples = retroConsumed s t
        ∧ currentGlobalBatchSize s ((runTrain s success ⟨0, 0, ⟨0, 0⟩⟩ t).consumedTrainSamples)
            = currentGlobalBatchSize s (retroConsumed s t)
        ∧ numMicrobatches s ((runTrain s success ⟨0, 0, ⟨0, 0⟩⟩ t).consumedTrainSamples)
            = numMicrobatches s (retroConsumed s t))
    ∧ (∀ rampSamples fuel, ∃ j,
        rampPhase s rampSamples fuel (0, 0) = (j, retroConsumed s j))
    ∧ (List.range 5).map
        (fun t => currentGlobalBatchSize ⟨8, 1, 24, some (8, 8, 24)⟩
          (retroConsumed ⟨8, 1, 24, some (8, 8, 24)⟩ t)) = [8, 16, 24, 24, 24]
    ∧ updateTrainIters ⟨8, 1, 24, some (8, 8, 24)⟩ 72 10 = 4 := by
  have key : ∀ t, (runTrain s success ⟨0, 0, ⟨0, 0⟩⟩ t).consumedTrainSamples
      = retroConsumed s t := by
    intro t
    induction t with
    | zero => rfl
    | succ n ih =>
      show (runTrain s success ⟨0, 0, ⟨0, 0⟩⟩ n).consumedTrainSamples
          + s.dataParallelSize * s.microBatchSize
            * numMicrobatches s (runTrain s success ⟨0, 0, ⟨0, 0⟩⟩ n).consumedTrainSamples
          = _
      rw [ih, increment_eq_current_gbs s hdiv]
      rfl
  refine ⟨fun t => ⟨key t, by rw [key t], by rw [key t]⟩, ?_, by decide, by decide⟩
  intro rampSamples fuel
  exact rampPhase_on_trace s rampSamples fuel 0

/-- Witness for C6: on the spec's ramp example the live loop's consumed
trace after 3 steps is 48 = 8 + 16 + 24, agreeing with the retrospective
trace. -/
theorem retro_simulation_matches_live_schedule_witness :
    (runTrain ⟨8, 1, 24, some (8, 8, 24)⟩ (fun _ => false) ⟨0, 0, ⟨0, 0⟩⟩ 3).consumedTrainSamples = 48
    ∧ retroConsumed ⟨8, 1, 24, some (8, 8, 24)⟩ 3 = 48 := by
  have hdiv : ExactMicrobatches ⟨8, 1, 24, some (8, 8, 24)⟩ := by
    intro c
    show (8 * 1 : Nat) ∣ currentGlobalBatchSize ⟨8, 1, 24, some (8, 8, 24)⟩ c
    show (8 * 1 : Nat) ∣ rampBatchSize 8 8 24 24 c
    unfold rampBatchSize
    by_cases h : 24 < c
    · rw [if_pos h]
      norm_num
    · rw [if_neg h]
      show (8 * 1 : Nat) ∣ min 24 (8 + 8 * (c / (24 / ((24 - 8) / 8 + 1))))
      have h24 : (24 : Nat) / ((24 - 8) / 8 + 1) = 8 := by norm_num
      rw [h24]
      rcases min_cases 24 (8 + 8 * (c / 8)) with ⟨heq, _⟩ | ⟨heq, _⟩ <;> rw [heq]
      · norm_num
      · exact ⟨1 + c / 8, by ring⟩
  have h := retro_simulation_matches_live_schedule ⟨8, 1, 24, some (8, 8, 24)⟩
    (fun _ => false) hdiv
  have h3 := (h.1 3).1
  constructor
  · rw [h3]
    decide
  · decide

end Megatron
